import Mathlib

/-!
Verification of the `pixel_map` rendering pipeline (src/pixel_map/plotter.py
and src/pixel_map/__main__.py) against its natural-language specification.

Python floats are modelled as rationals (`ℚ`); a Python expression that would
raise `ZeroDivisionError` is modelled by an `Option` result of `none`.
-/

namespace PixelMap

/-- Projected-coordinate core of `_expand_bbox_to_match_ratio`
(plotter.py lines 198–215).  The Python function first forward-projects the
two bbox corners to Web-Mercator, then runs this computation on the projected
corners `(left, bottom, right, top)` and a target ratio `tq`; the result here
is the projected axes-bounds tuple, the second component of the Python return
value (the first component is its inverse projection and is not separately
modelled).  A division whose denominator is zero raises `ZeroDivisionError`
in Python and is modelled as `none`: `current_ratio = width / height` needs
`height ≠ 0`, the width-growing branch divides by `current_ratio`, and the
height-growing branch divides by `tq`. -/
def _expand_bbox_to_match_ratio (left bottom right top tq : ℚ) :
    Option (ℚ × ℚ × ℚ × ℚ) :=
  let width := right - left
  let height := top - bottom
  if height = 0 then none
  else
    let cr := width / height
    if cr < tq then
      if cr = 0 then none
      else
        let new_width := (tq / cr) * width
        let width_padding := (new_width - width) / 2
        some (left - width_padding, bottom, right + width_padding, top)
    else
      if tq = 0 then none
      else
        let new_height := (cr / tq) * height
        let height_padding := (new_height - height) / 2
        some (left, bottom - height_padding, right, top + height_padding)

/-- `_expand_axes_limit_to_match_ratio` (plotter.py lines 218–237): reads the
axes limits `(left, right)` and `(bottom, top)` and performs the identical
ratio-matching computation, returning the new `(left, bottom, right, top)`.
Divisions are guarded exactly as in ` _expand_bbox_to_match_ratio`. -/
def _expand_axes_limit_to_match_ratio (left bottom right top tq : ℚ) :
    Option (ℚ × ℚ × ℚ × ℚ) :=
  let width := right - left
  let height := top - bottom
  if height = 0 then none
  else
    let cr := width / height
    if cr < tq then
      if cr = 0 then none
      else
        let new_width := (tq / cr) * width
        let width_padding := (new_width - width) / 2
        some (left - width_padding, bottom, right + width_padding, top)
    else
      if tq = 0 then none
      else
        let new_height := (cr / tq) * height
        let height_padding := (new_height - height) / 2
        some (left, bottom - height_padding, right, top + height_padding)

/-- Digit string to natural number, most significant digit first. -/
def digitsVal (l : List Char) : ℕ :=
  l.foldl (fun a c => 10 * a + (c.toNat - 48)) 0

/-- Model of Python `str.split(",")` on the character list: always returns at
least one piece; empty pieces are kept (`"" → [""]`, `"1,,2" → ["1","","2"]`). -/
def splitOnComma : List Char → List (List Char)
  | [] => [[]]
  | c :: rest =>
    if c = ',' then [] :: splitOnComma rest
    else
      match splitOnComma rest with
      | h :: t => (c :: h) :: t
      | [] => [[c]]

/-- Model of Python `str.strip()`: removes leading and trailing whitespace. -/
def pyStrip (l : List Char) : List Char :=
  ((l.dropWhile (fun c => c.isWhitespace)).reverse.dropWhile
    (fun c => c.isWhitespace)).reverse

/-- Model of Python `float(s)` restricted to plain decimal literals: an
optional sign, then digits with an optional single decimal point and at least
one digit overall (`"1"`, `"-2.5"`, `".5"`, `"1."`).  Scientific notation,
`inf`/`nan` and underscores are outside the model.  `none` models the
`ValueError` that `float()` raises on unparsable input. -/
def pyFloat? (l : List Char) : Option ℚ :=
  let signAndRest : Bool × List Char :=
    match l with
    | '-' :: rest => (true, rest)
    | '+' :: rest => (false, rest)
    | _ => (false, l)
  let neg := signAndRest.1
  let body := signAndRest.2
  let intPart := body.takeWhile (fun c => c.isDigit)
  let rest := body.dropWhile (fun c => c.isDigit)
  let mag : Option ℚ :=
    match rest with
    | [] =>
      if intPart.isEmpty then none
      else some ((digitsVal intPart : ℚ))
    | '.' :: fracPart =>
      if fracPart.all (fun c => c.isDigit) && !(intPart.isEmpty && fracPart.isEmpty) then
        some ((digitsVal (intPart ++ fracPart) : ℚ) / (10 ^ fracPart.length))
      else none
    | _ => none
  mag.map (fun v => if neg then -v else v)

/-- Outcome of `BboxGeometryParser.convert`: either the tuple of parsed floats
or a `typer.BadParameter` carrying the remediation message. -/
inductive ConvertResult where
  | ok : List ℚ → ConvertResult
  | badParameter : String → ConvertResult
deriving DecidableEq

/-- `BboxGeometryParser.convert` (src/pixel_map/__main__.py lines 26–36):
splits the option string on commas, strips each piece and converts it with
`float`; if any piece fails to parse it raises `typer.BadParameter` with the
remediation text.  Note the source never checks how many pieces there are. -/
def convert (value : String) : ConvertResult :=
  match (splitOnComma value.toList).mapM (fun x => pyFloat? (pyStrip x)) with
  | some vs => ConvertResult.ok vs
  | none => ConvertResult.badParameter "Cannot parse provided bounding box. Valid value must contain 4 floating point numbers separated by commas."

/-- Python truthiness of the parsed bbox tuple as used by `if bbox:` in
`plot_geo_data` (plotter.py line 73): a tuple is truthy iff it is non-empty. -/
def bboxTruthy (l : List ℚ) : Bool :=
  !l.isEmpty

/-- Generic single-character splitter, the `List Char` counterpart of Python
`str.split(sep)` for a one-character separator. -/
def splitOnChar (sep : Char) : List Char → List (List Char)
  | [] => [[]]
  | c :: rest =>
    if c = sep then [] :: splitOnChar sep rest
    else
      match splitOnChar sep rest with
      | h :: t => (c :: h) :: t
      | [] => [[c]]

/-- Model of `pathlib.Path(p).name`: the last `/`-separated component. -/
def pathName (p : String) : String :=
  ⟨(splitOnChar '/' p.toList).getLastD []⟩

/-- A parameter of a Python function signature: its name and whether it has a
default value. -/
structure PyParam where
  name : String
  hasDefault : Bool
deriving DecidableEq

/-- Signature of `plot_geo_data` (plotter.py lines 31–36):
`plot_geo_data(files, renderer, bbox=None, no_border=False)` — `files` and
`renderer` have no default. -/
def plot_geo_data_params : List PyParam :=
  [⟨"files", false⟩, ⟨"renderer", false⟩, ⟨"bbox", true⟩, ⟨"no_border", true⟩]

/-- The argument/option names the `plot` CLI command declares
(src/pixel_map/__main__.py lines 39–69): the `files` argument, the `--bbox`
option and the `--version` flag. -/
def plot_cli_params : List String :=
  ["files", "bbox", "version"]

/-- Python call binding: given a signature, the number of positional arguments
and the keyword-argument names of a call, returns the `TypeError` message for
the first required parameter left unbound, or `none` when the call binds. -/
def bindCall (params : List PyParam) (npos : ℕ) (kw : List String) : Option String :=
  let bound := (params.take npos).map (fun p => p.name) ++ kw
  match params.find? (fun p => !p.hasDefault && !(bound.contains p.name)) with
  | some p => some ("TypeError: missing required argument: " ++ p.name)
  | none => none

/-- The call `plot_geo_data(files, bbox=bbox)` made by the `plot` command body
(__main__.py line 75): one positional argument plus the keyword `bbox`. -/
def plot_invokes_plot_geo_data : Option String :=
  bindCall plot_geo_data_params 1 ["bbox"]

/-- Terminal cell budget and target ratio computed by `plot_geo_data`
(plotter.py lines 51–63): with a border the usable grid is
`console.width − 2` by `console.height − 3`, without one it is `console.width`
by `console.height − 1`; `map_ratio = map_width / map_height` with
`map_height = terminal_height * 2`.  The renderer is then constructed with
exactly this `terminal_width`/`terminal_height` (lines 138–140).  Returns
`(terminal_width, terminal_height, map_ratio)`. -/
def plotLayout (consoleWidth consoleHeight : ℤ) (no_border : Bool) : ℤ × ℤ × ℚ :=
  let terminal_width := if no_border then consoleWidth else consoleWidth - 2
  let terminal_height := if no_border then consoleHeight - 1 else consoleHeight - 3
  let map_width := terminal_width
  let map_height := terminal_height * 2
  (terminal_width, terminal_height, (map_width : ℚ) / (map_height : ℚ))

/-- The candidate title built inside `_generate_panel_title`'s loop for the
file names appended so far and the number of names left unappended
(plotter.py lines 274–281). -/
def titleCandidate (inTitle : List String) (leftCount : ℕ) : String :=
  let joined := String.intercalate ", " inTitle
  if leftCount = 0 then joined
  else if leftCount = 1 then joined ++ " + 1 other file"
  else joined ++ " + " ++ toString leftCount ++ " other files"

/-- The `while file_names_left:` loop of `_generate_panel_title`
(plotter.py lines 271–286): pops the next name, builds the candidate title,
keeps the previous title and stops as soon as a candidate exceeds
`terminal_width - 4` characters. -/
def titleLoop (terminal_width : ℤ) : String → List String → List String → String
  | title, _, [] => title
  | title, inTitle, f :: rest =>
    let inTitle' := inTitle ++ [f]
    let newTitle := titleCandidate inTitle' rest.length
    if (newTitle.length : ℤ) > terminal_width - 4 then title
    else titleLoop terminal_width newTitle inTitle' rest

/-- `_generate_panel_title` (plotter.py lines 261–288). -/
def _generate_panel_title (files : List String) (terminal_width : ℤ) : String :=
  let file_paths := files.map pathName
  let title := if file_paths.length = 1 then "1 file"
    else toString file_paths.length ++ " files"
  titleLoop terminal_width title [] file_paths

/-- A bounding box as a 4-tuple of coordinates. -/
abbrev Bbox := ℚ × ℚ × ℚ × ℚ

/-- Index of the last `.` in a character list, if any. -/
def lastDotIdx : List Char → Option ℕ
  | [] => none
  | c :: rest =>
    match lastDotIdx rest with
    | some k => some (k + 1)
    | none => if c = '.' then some 0 else none

/-- Model of `pathlib.Path(p).suffix`: the final extension of the last path
component, including the dot; empty when the name has no dot, starts with its
only dot, or ends with the dot. -/
def pathSuffix (p : String) : String :=
  let name := (splitOnChar '/' p.toList).getLastD []
  match lastDotIdx name with
  | some k => if 0 < k ∧ k + 1 < name.length then ⟨name.drop k⟩ else ""
  | none => ""

/-- Abstract behaviour of the geopandas readers used by `_load_geo_data`:
`read_parquet path bbox` models `gpd.read_parquet(path, bbox=bbox)` and
`read_file path bbox` models `gpd.read_file(path, bbox=bbox)`; geometries are
abstracted to numbers and a raised exception to `Except.error`. -/
structure GeoEnv where
  read_parquet : String → Option Bbox → Except String ℕ
  read_file : String → Option Bbox → Except String ℕ

/-- `_read_geoparquet_file` (plotter.py lines 181–187): try the bbox-aware
GeoParquet read; on any exception silently fall back to reading the same file
with no bbox filter. -/
def _read_geoparquet_file (env : GeoEnv) (path : String) (bbox : Option Bbox) :
    Except String ℕ :=
  match env.read_parquet path bbox with
  | Except.ok g => Except.ok g
  | Except.error _ => env.read_parquet path none

/-- `_load_geo_data` (plotter.py lines 165–178): read each file in order —
via `_read_geoparquet_file` when the path's suffix is `.parquet`, otherwise
via `gpd.read_file(path, bbox=bbox)` with no fallback of any kind — and
concatenate the geometries; the first exception propagates. -/
def _load_geo_data (env : GeoEnv) (files : List String) (bbox : Option Bbox) :
    Except String (List ℕ) :=
  match files with
  | [] => Except.ok []
  | f :: rest => do
    let g ← if pathSuffix f = ".parquet" then _read_geoparquet_file env f bbox
      else env.read_file f bbox
    let gs ← _load_geo_data env rest bbox
    pure (g :: gs)

/-- A reader environment in which the bbox-aware read of any file fails while
the unfiltered read succeeds. -/
def envGpkgBboxFails : GeoEnv where
  read_parquet := fun _ _ => Except.error "unused"
  read_file := fun _ bbox =>
    match bbox with
    | some _ => Except.error "bbox read failed"
    | none => Except.ok 7

/-- A reader environment whose bbox-aware GeoParquet read fails while the
unfiltered read succeeds. -/
def envParquetBboxFails : GeoEnv where
  read_parquet := fun _ bbox =>
    match bbox with
    | some _ => Except.error "bbox index unsupported"
    | none => Except.ok 3
  read_file := fun _ _ => Except.error "unused"

/-- Style of one rich `Text` segment: optional RGB foreground and background. -/
structure RStyle where
  color : Option (ℕ × ℕ × ℕ)
  bgcolor : Option (ℕ × ℕ × ℕ)
deriving DecidableEq

/-- The style rich gives the appended `"\n"`: no colors. -/
def defaultStyle : RStyle := ⟨none, none⟩

/-- The `Style(color=..., bgcolor=...)` built for cell `(y, x)`
(plotter.py lines 252–255): each color is present iff the corresponding
array was passed. -/
def styleAt (fg bg : Option (List (List (ℕ × ℕ × ℕ)))) (y x : ℕ) : RStyle where
  color := fg.map (fun g => (g.getD y []).getD x (0, 0, 0))
  bgcolor := bg.map (fun g => (g.getD y []).getD x (0, 0, 0))

/-- `_construct_full_rich_string` (plotter.py lines 240–258): walks the glyph
grid row-major (`y` over `shape[0]` rows, `x` over `shape[1]` columns),
appending one styled character `chr(characters[y, x])` per cell, then an
unstyled `"\n"` after each row, and finally drops the trailing character
(`result[:-1]`).  The rich `Text` document is modelled as the list of its
(character, style) pairs; numpy's rectangular `shape[1]` is the length of the
first row. -/
def _construct_full_rich_string (chars : List (List ℕ))
    (fg bg : Option (List (List (ℕ × ℕ × ℕ)))) : List (Char × RStyle) :=
  (((List.range chars.length).map (fun y =>
      ((List.range (chars.headD []).length).map (fun x =>
        (Char.ofNat ((chars.getD y []).getD x 0), styleAt fg bg y x)))
      ++ [('\n', defaultStyle)])).flatten).dropLast

theorem axes_fit_eq_bbox_fit (left bottom right top tq : ℚ) :
    _expand_axes_limit_to_match_ratio left bottom right top tq =
      _expand_bbox_to_match_ratio left bottom right top tq := rfl

/-- Full behaviour of the shared ratio-fitting core on a valid projected box:
the fit succeeds, the result matches the target ratio exactly, contains the
input box, pads symmetrically, and leaves at least one axis pair untouched. -/
theorem fit_spec (left bottom right top tq : ℚ)
    (hl : left < right) (hb : bottom < top) (hq : 0 < tq) :
    ∃ l b r t,
      _expand_bbox_to_match_ratio left bottom right top tq = some (l, b, r, t) ∧
      (r - l) / (t - b) = tq ∧
      l ≤ left ∧ b ≤ bottom ∧ right ≤ r ∧ top ≤ t ∧
      left - l = r - right ∧ bottom - b = t - top ∧
      ((l = left ∧ r = right) ∨ (b = bottom ∧ t = top)) := by
  have hh : (0:ℚ) < top - bottom := by linarith
  have hw : (0:ℚ) < right - left := by linarith
  have hh0 : top - bottom ≠ 0 := ne_of_gt hh
  have hw0 : right - left ≠ 0 := ne_of_gt hw
  by_cases hlt : (right - left) / (top - bottom) < tq
  · -- width-growing branch
    have hcr0 : (right - left) / (top - bottom) ≠ 0 := ne_of_gt (div_pos hw hh)
    have hpadeq : tq / ((right - left) / (top - bottom)) * (right - left) - (right - left)
        = tq * (top - bottom) - (right - left) := by
      field_simp
    have hval : _expand_bbox_to_match_ratio left bottom right top tq =
        some (left - (tq * (top - bottom) - (right - left)) / 2, bottom,
              right + (tq * (top - bottom) - (right - left)) / 2, top) := by
      simp only [_expand_bbox_to_match_ratio, if_neg hh0, if_pos hlt, if_neg hcr0,
        hpadeq]
    have hwlt : right - left < tq * (top - bottom) := (div_lt_iff₀ hh).mp hlt
    have hpadpos : 0 ≤ (tq * (top - bottom) - (right - left)) / 2 := by linarith
    refine ⟨left - (tq * (top - bottom) - (right - left)) / 2, bottom,
            right + (tq * (top - bottom) - (right - left)) / 2, top,
            hval, ?_, by linarith, le_refl _, by linarith, le_refl _,
            by ring, by ring, Or.inr ⟨rfl, rfl⟩⟩
    have hnum : right + (tq * (top - bottom) - (right - left)) / 2 -
        (left - (tq * (top - bottom) - (right - left)) / 2) = tq * (top - bottom) := by
      ring
    rw [hnum, mul_div_assoc, div_self hh0, mul_one]
  · -- height-growing branch
    have htq0 : tq ≠ 0 := ne_of_gt hq
    have hpadeq : (right - left) / (top - bottom) / tq * (top - bottom) - (top - bottom)
        = (right - left) / tq - (top - bottom) := by
      field_simp
      ring
    have hval : _expand_bbox_to_match_ratio left bottom right top tq =
        some (left, bottom - ((right - left) / tq - (top - bottom)) / 2,
              right, top + ((right - left) / tq - (top - bottom)) / 2) := by
      simp only [_expand_bbox_to_match_ratio, if_neg hh0, if_neg hlt, if_neg htq0,
        hpadeq]
    have hge : tq ≤ (right - left) / (top - bottom) := le_of_not_lt hlt
    have hge' : tq * (top - bottom) ≤ right - left := (le_div_iff₀ hh).mp hge
    have hge'' : top - bottom ≤ (right - left) / tq := (le_div_iff₀ hq).mpr (by linarith)
    have hpadpos : 0 ≤ ((right - left) / tq - (top - bottom)) / 2 := by linarith
    refine ⟨left, bottom - ((right - left) / tq - (top - bottom)) / 2,
            right, top + ((right - left) / tq - (top - bottom)) / 2,
            hval, ?_, le_refl _, by linarith, le_refl _, by linarith,
            by ring, by ring, Or.inl ⟨rfl, rfl⟩⟩
    have hnum : top + ((right - left) / tq - (top - bottom)) / 2 -
        (bottom - ((right - left) / tq - (top - bottom)) / 2) = (right - left) / tq := by
      ring
    rw [hnum]
    rw [div_div_eq_mul_div, mul_comm, mul_div_assoc, div_self hw0, mul_one]

/-- C2 (code bug): `BboxGeometryParser.convert` accepts any comma-separated
list of parseable floats regardless of arity — `"1,2,3"` and `"1,2"` are
accepted and returned as 3- and 2-tuples with no error, although the claim
(and the parser's own remediation message) requires exactly 4 floats; only a
piece that fails `float()` triggers the `BadParameter` error. -/
theorem convert_accepts_wrong_arity :
    convert "1,2,3" = ConvertResult.ok [1, 2, 3] ∧
    convert "1,2" = ConvertResult.ok [1, 2] ∧
    [(1:ℚ), 2, 3].length ≠ 4 ∧
    convert "1,2,3,4" = ConvertResult.ok [1, 2, 3, 4] ∧
    convert "a,b,c,d" = ConvertResult.badParameter
      "Cannot parse provided bounding box. Valid value must contain 4 floating point numbers separated by commas." := by
  decide

/-- C6 (counterexample): the `min < max` bounding-box invariant is not
enforced at construction — `convert` accepts the degenerate bbox `"1,1,1,1"`
(whose minX is not smaller than its maxX), the non-empty tuple passes the
`if bbox:` guard and reaches `_expand_bbox_to_match_ratio`, and on the
resulting degenerate projected box (both corners project to the same point,
here shown at the origin) the division `width / height` divides by zero. -/
theorem bbox_invariant_not_enforced_at_construction :
    convert "1,1,1,1" = ConvertResult.ok [1, 1, 1, 1] ∧
    ¬((1:ℚ) < 1) ∧
    bboxTruthy [1, 1, 1, 1] = true ∧
    _expand_bbox_to_match_ratio 0 0 0 0 2 = none := by
  refine ⟨by decide, by norm_num, by decide, ?_⟩
  norm_num [_expand_bbox_to_match_ratio]

/-- C6 (amended): the divisions inside the ratio-fitting functions are safe
exactly on non-degenerate projected boxes: whenever the projected corners
satisfy `left < right` and `bottom < top` and the target ratio is positive,
no division by zero occurs (the fit returns a value instead of the `none`
that models `ZeroDivisionError`). -/
theorem fit_division_safe_on_valid_box (left bottom right top tq : ℚ)
    (hl : left < right) (hb : bottom < top) (hq : 0 < tq) :
    (_expand_bbox_to_match_ratio left bottom right top tq).isSome ∧
    (_expand_axes_limit_to_match_ratio left bottom right top tq).isSome := by
  obtain ⟨l, b, r, t, hv, _⟩ := fit_spec left bottom right top tq hl hb hq
  constructor
  · rw [hv]
    rfl
  · rw [axes_fit_eq_bbox_fit, hv]
    rfl

theorem fit_division_safe_on_valid_box_witness :
    ((0:ℚ) < 1 ∧ (0:ℚ) < 2 ∧ (0:ℚ) < 1) ∧
    ((_expand_bbox_to_match_ratio 0 0 1 2 1).isSome ∧
     (_expand_axes_limit_to_match_ratio 0 0 1 2 1).isSome) :=
  ⟨⟨by norm_num, by norm_num, by norm_num⟩,
    fit_division_safe_on_valid_box 0 0 1 2 1 (by norm_num) (by norm_num)
      (by norm_num)⟩

/-- C3 (code bug): the `plot` CLI command declares no renderer-selection
option and no no-border option, and its body calls
`plot_geo_data(files, bbox=bbox)`, which leaves the required `renderer`
parameter unbound — the invocation does not supply every argument
`plot_geo_data` requires (it would bind only if `renderer` were also
passed). -/
theorem plot_call_missing_renderer :
    plot_invokes_plot_geo_data =
      some "TypeError: missing required argument: renderer" ∧
    plot_cli_params.contains "renderer" = false ∧
    plot_cli_params.contains "no_border" = false ∧
    bindCall plot_geo_data_params 1 ["bbox", "renderer"] = none := by
  decide

/-- C10: in every invocation of `plot_geo_data`, the renderer's cell budget
and the target ratio are fixed functions of the console size and the border
flag: with a border the grid is `console.width − 2` columns by
`console.height − 3` rows, without one `console.width` by
`console.height − 1`, and the target aspect ratio is
`columns / (2 × rows)`. -/
theorem plot_layout_budget_and_target (cw ch : ℤ) (nb : Bool) :
    plotLayout cw ch nb =
      ((if nb then cw else cw - 2), (if nb then ch - 1 else ch - 3),
        (((if nb then cw else cw - 2) : ℤ) : ℚ) /
          (2 * (((if nb then ch - 1 else ch - 3) : ℤ) : ℚ))) := by
  cases nb <;> simp [plotLayout] <;> ring

/-- C4 (counterexample): for `["a.gpkg","b.gpkg","c.gpkg"]` and terminal
width 20 the first candidate `"a.gpkg + 2 other files"` (22 characters)
already exceeds the 16-character budget, so `_generate_panel_title` keeps the
initial count label — which is `"3 files"`, not the `"2 files"` the claim
expects. -/
theorem panel_title_three_files_not_two_files :
    _generate_panel_title ["a.gpkg", "b.gpkg", "c.gpkg"] 20 ≠ "2 files" ∧
    _generate_panel_title ["a.gpkg", "b.gpkg", "c.gpkg"] 20 = "3 files" := by
  decide

/-- C4 (amended): the title is built by greedily appending file basenames;
a candidate exceeding `terminalWidth − 4` characters makes the loop keep the
previous title and stop.  For `["a.gpkg","b.gpkg","c.gpkg"]` and terminal
width 20 the returned title is within the 16-character budget and degrades to
`"a.gpkg + 2 other files"` when it fits (terminal width 30 shown) and to the
count label `"3 files"` when it does not. -/
theorem panel_title_three_files_amended :
    _generate_panel_title ["a.gpkg", "b.gpkg", "c.gpkg"] 20 = "3 files" ∧
    (_generate_panel_title ["a.gpkg", "b.gpkg", "c.gpkg"] 20).length ≤ 16 ∧
    16 < ("a.gpkg + 2 other files").length ∧
    _generate_panel_title ["a.gpkg", "b.gpkg", "c.gpkg"] 30 =
      "a.gpkg + 2 other files" := by
  decide

/-- C9 (counterexample): the bbox-failure fallback does not hold for every
file: for the non-parquet file `a.gpkg` whose bbox-aware read fails (while an
unfiltered read would succeed), `_load_geo_data` surfaces the error instead
of retrying without the bbox filter. -/
theorem nonparquet_bbox_failure_not_retried :
    pathSuffix "a.gpkg" = ".gpkg" ∧
    envGpkgBboxFails.read_file "a.gpkg" (some (0, 0, 1, 1)) =
      Except.error "bbox read failed" ∧
    envGpkgBboxFails.read_file "a.gpkg" none = Except.ok 7 ∧
    _load_geo_data envGpkgBboxFails ["a.gpkg"] (some (0, 0, 1, 1)) =
      Except.error "bbox read failed" :=
  ⟨by decide, rfl, rfl, rfl⟩

/-- C9 (amended): the permissive fallback exists exactly for `.parquet`
files: when the bbox-aware GeoParquet read of such a file fails, the loader
silently re-reads that same file without the bbox filter, and
`_load_geo_data` returns whatever the unfiltered read produces. -/
theorem parquet_bbox_read_failure_falls_back (env : GeoEnv) (f : String)
    (bb : Option Bbox) (e : String)
    (hp : pathSuffix f = ".parquet")
    (hf : env.read_parquet f bb = Except.error e) :
    _read_geoparquet_file env f bb = env.read_parquet f none ∧
    _load_geo_data env [f] bb =
      (env.read_parquet f none).map (fun g => [g]) := by
  have h1 : _read_geoparquet_file env f bb = env.read_parquet f none := by
    unfold _read_geoparquet_file
    rw [hf]
  refine ⟨h1, ?_⟩
  unfold _load_geo_data
  rw [if_pos hp, h1]
  unfold _load_geo_data
  cases env.read_parquet f none <;> rfl

theorem parquet_bbox_read_failure_falls_back_witness :
    (pathSuffix "x.parquet" = ".parquet" ∧
     envParquetBboxFails.read_parquet "x.parquet" (some (0, 0, 1, 1)) =
       Except.error "bbox index unsupported") ∧
    (_read_geoparquet_file envParquetBboxFails "x.parquet" (some (0, 0, 1, 1)) =
       envParquetBboxFails.read_parquet "x.parquet" none ∧
     _load_geo_data envParquetBboxFails ["x.parquet"] (some (0, 0, 1, 1)) =
       (envParquetBboxFails.read_parquet "x.parquet" none).map (fun g => [g])) :=
  ⟨⟨by decide, rfl⟩,
    parquet_bbox_read_failure_falls_back envParquetBboxFails "x.parquet"
      (some (0, 0, 1, 1)) "bbox index unsupported" (by decide) rfl⟩

lemma splitOnChar_of_not_mem (sep : Char) (l : List Char) (h : sep ∉ l) :
    splitOnChar sep l = [l] := by
  induction l with
  | nil => rfl
  | cons c rest ih =>
    have hc : ¬(c = sep) := by
      intro hc
      exact h (by rw [hc]; exact List.mem_cons_self sep rest)
    have hrest : sep ∉ rest := fun hm => h (List.mem_cons_of_mem c hm)
    simp only [splitOnChar, if_neg hc, ih hrest]

lemma splitOnChar_append_cons (sep : Char) (l rest : List Char) (h : sep ∉ l) :
    splitOnChar sep (l ++ sep :: rest) = l :: splitOnChar sep rest := by
  induction l with
  | nil => simp only [List.nil_append, splitOnChar, if_pos rfl, if_true]
  | cons c t ih =>
    have hc : ¬(c = sep) := by
      intro hc
      exact h (by rw [hc]; exact List.mem_cons_self sep t)
    have ht : sep ∉ t := fun hm => h (List.mem_cons_of_mem c hm)
    simp only [List.cons_append, splitOnChar, if_neg hc, List.append_eq, ih ht]

/-- Serialization of newline-terminated rows splits back into the rows. -/
lemma rows_flatten_split (rows : List (List Char)) (hne : rows ≠ [])
    (hnl : ∀ r ∈ rows, '\n' ∉ r) :
    splitOnChar '\n' (((rows.map (fun r => r ++ ['\n'])).flatten).dropLast)
      = rows := by
  induction rows with
  | nil => exact absurd rfl hne
  | cons r rs ih =>
    have hr : '\n' ∉ r := hnl r (List.mem_cons_self r rs)
    cases rs with
    | nil =>
      simp only [List.map_cons, List.map_nil, List.flatten_cons, List.flatten_nil,
        List.append_nil, List.dropLast_concat]
      exact splitOnChar_of_not_mem '\n' r hr
    | cons r' rs' =>
      have hflatne : (r' ++ ['\n']) ++
          (rs'.map (fun q => q ++ ['\n'])).flatten ≠ [] :=
        List.append_ne_nil_of_left_ne_nil (by simp) _
      simp only [List.map_cons, List.flatten_cons]
      rw [List.dropLast_append_of_ne_nil _ hflatne, List.append_assoc,
        List.singleton_append,
        splitOnChar_append_cons '\n' r _ hr]
      have := ih (by simp) (fun q hq => hnl q (List.mem_cons_of_mem r hq))
      simp only [List.map_cons, List.flatten_cons] at this
      rw [this]

/-- Indexed access over `List.range` collapses to a plain map. -/
lemma map_range_getD {α β : Type} (l : List α) (d : α) (f : α → β) :
    (List.range l.length).map (fun i => f (l.getD i d)) = l.map f := by
  induction l with
  | nil => rfl
  | cons a t ih =>
    rw [List.length_cons, List.range_succ_eq_map, List.map_cons, List.map_map]
    simp only [List.getD_cons_zero, List.getD_cons_succ, Function.comp]
    exact congrArg (List.cons (f a)) ih

/-- The character stream of the document is the newline-terminated rows with
the final newline dropped. -/
lemma rich_string_char_stream (chars : List (List ℕ))
    (fg bg : Option (List (List (ℕ × ℕ × ℕ))))
    (hrect : ∀ row ∈ chars, row.length = (chars.headD []).length) :
    (_construct_full_rich_string chars fg bg).map Prod.fst =
      (((chars.map (fun row => row.map Char.ofNat)).map
        (fun r => r ++ ['\n'])).flatten).dropLast := by
  unfold _construct_full_rich_string
  rw [List.map_dropLast]
  congr 1
  rw [List.map_flatten, List.map_map, List.map_map]
  congr 1
  have e1 : (List.range chars.length).map
      (List.map Prod.fst ∘ fun y =>
        ((List.range (chars.headD []).length).map (fun x =>
          (Char.ofNat ((chars.getD y []).getD x 0), styleAt fg bg y x)))
        ++ [('\n', defaultStyle)])
      = (List.range chars.length).map (fun y =>
          (List.range (chars.headD []).length).map (fun x =>
            Char.ofNat ((chars.getD y []).getD x 0)) ++ ['\n']) := by
    apply List.map_congr_left
    intro y _
    simp only [Function.comp, List.map_append, List.map_map, List.map_cons,
      List.map_nil]
    rfl
  have e2 : (List.range chars.length).map (fun y =>
      (List.range (chars.headD []).length).map (fun x =>
        Char.ofNat ((chars.getD y []).getD x 0)) ++ ['\n'])
      = chars.map (fun row =>
          (List.range (chars.headD []).length).map (fun x =>
            Char.ofNat (row.getD x 0)) ++ ['\n']) :=
    map_range_getD chars []
      (fun row => (List.range (chars.headD []).length).map (fun x =>
        Char.ofNat (row.getD x 0)) ++ ['\n'])
  have e3 : chars.map (fun row =>
      (List.range (chars.headD []).length).map (fun x =>
        Char.ofNat (row.getD x 0)) ++ ['\n'])
      = chars.map ((fun r => r ++ ['\n']) ∘ fun row => row.map Char.ofNat) := by
    apply List.map_congr_left
    intro row hrow
    simp only [Function.comp]
    rw [← hrect row hrow, map_range_getD row 0 Char.ofNat]
  exact e1.trans (e2.trans e3)

/-- C5: for every glyph grid — a rectangular grid of character codes with
optional parallel foreground/background color grids, containing no newline
glyph — the serialized document has exactly one line per grid row (the split
lines are precisely the grid rows, so the line count equals the row count and
every cell emits exactly one styled character, none silently dropped), and a
cell holding the space code 32 — the degenerate style-marker cell — still
emits a styled space. -/
theorem rich_string_line_structure (chars : List (List ℕ))
    (fg bg : Option (List (List (ℕ × ℕ × ℕ))))
    (hne : chars ≠ [])
    (hrect : ∀ row ∈ chars, row.length = (chars.headD []).length)
    (hnl : ∀ row ∈ chars, ∀ c ∈ row, Char.ofNat c ≠ '\n') :
    splitOnChar '\n' ((_construct_full_rich_string chars fg bg).map Prod.fst) =
      chars.map (fun row => row.map Char.ofNat) ∧
    (splitOnChar '\n'
      ((_construct_full_rich_string chars fg bg).map Prod.fst)).length =
      chars.length ∧
    (∀ y x : ℕ, y < chars.length → x < (chars.headD []).length →
      (chars.getD y []).getD x 0 = 32 →
      ((splitOnChar '\n'
        ((_construct_full_rich_string chars fg bg).map Prod.fst)).getD y
          []).getD x 'A' = ' ') := by
  have hrowsne : chars.map (fun row => row.map Char.ofNat) ≠ [] := by
    intro hmap
    exact hne (List.map_eq_nil_iff.mp hmap)
  have hrowsnl : ∀ r ∈ chars.map (fun row => row.map Char.ofNat), '\n' ∉ r := by
    intro r hr
    obtain ⟨row, hrow, rfl⟩ := List.mem_map.mp hr
    intro hmem
    obtain ⟨c, hc, hceq⟩ := List.mem_map.mp hmem
    exact hnl row hrow c hc hceq
  have hmain : splitOnChar '\n'
      ((_construct_full_rich_string chars fg bg).map Prod.fst) =
      chars.map (fun row => row.map Char.ofNat) := by
    rw [rich_string_char_stream chars fg bg hrect]
    exact rows_flatten_split (chars.map (fun row => row.map Char.ofNat))
      hrowsne hrowsnl
  refine ⟨hmain, ?_, ?_⟩
  · rw [hmain, List.length_map]
  · intro y x hy hx h32
    rw [hmain]
    have hy' : y < (chars.map (fun row => row.map Char.ofNat)).length := by
      rw [List.length_map]
      exact hy
    rw [List.getD_eq_getElem _ _ hy', List.getElem_map]
    have hyc : y < chars.length := hy
    have hxrow : x < chars[y].length := by
      rw [hrect chars[y] (List.getElem_mem hyc)]
      exact hx
    have hx' : x < (chars[y].map Char.ofNat).length := by
      rw [List.length_map]
      exact hxrow
    rw [List.getD_eq_getElem _ _ hx', List.getElem_map]
    have h32' : chars[y][x] = 32 := by
      rw [List.getD_eq_getElem _ _ hyc, List.getD_eq_getElem _ _ hxrow] at h32
      exact h32
    rw [h32']

theorem rich_string_line_structure_witness :
    (([[32, 65], [66, 67]] : List (List ℕ)) ≠ [] ∧
     (∀ row ∈ ([[32, 65], [66, 67]] : List (List ℕ)),
        row.length = (([[32, 65], [66, 67]] : List (List ℕ)).headD []).length) ∧
     (∀ row ∈ ([[32, 65], [66, 67]] : List (List ℕ)), ∀ c ∈ row,
        Char.ofNat c ≠ '\n')) ∧
    (splitOnChar '\n' ((_construct_full_rich_string [[32, 65], [66, 67]] none
        (some [[(1, 2, 3), (4, 5, 6)], [(7, 8, 9), (0, 0, 0)]])).map Prod.fst) =
      ([[32, 65], [66, 67]] : List (List ℕ)).map
        (fun row => row.map Char.ofNat) ∧
     (splitOnChar '\n' ((_construct_full_rich_string [[32, 65], [66, 67]] none
        (some [[(1, 2, 3), (4, 5, 6)], [(7, 8, 9), (0, 0, 0)]])).map
          Prod.fst)).length = ([[32, 65], [66, 67]] : List (List ℕ)).length ∧
     (∀ y x : ℕ, y < ([[32, 65], [66, 67]] : List (List ℕ)).length →
        x < (([[32, 65], [66, 67]] : List (List ℕ)).headD []).length →
        (([[32, 65], [66, 67]] : List (List ℕ)).getD y []).getD x 0 = 32 →
        ((splitOnChar '\n' ((_construct_full_rich_string [[32, 65], [66, 67]]
            none (some [[(1, 2, 3), (4, 5, 6)], [(7, 8, 9), (0, 0, 0)]])).map
              Prod.fst)).getD y []).getD x 'A' = ' ')) :=
  ⟨⟨by decide, by decide, by decide⟩,
    rich_string_line_structure [[32, 65], [66, 67]] none
      (some [[(1, 2, 3), (4, 5, 6)], [(7, 8, 9), (0, 0, 0)]])
      (by decide) (by decide) (by decide)⟩

/-- C1: for every valid projected box (`left < right`, `bottom < top`) and every
positive target ratio, both `_expand_bbox_to_match_ratio` (its projected result)
and `_expand_axes_limit_to_match_ratio` return a box whose width/height ratio is
within every positive epsilon of the target (it is in fact exactly the target),
which contains the original box, and whose non-negative padding is applied to
exactly one axis pair: at least one pair is left unchanged and the two pairs are
never both strictly padded. -/
theorem fit_ratio_invariant (left bottom right top tq : ℚ)
    (hl : left < right) (hb : bottom < top) (hq : 0 < tq) :
    ∃ l b r t,
      _expand_bbox_to_match_ratio left bottom right top tq = some (l, b, r, t) ∧
      _expand_axes_limit_to_match_ratio left bottom right top tq = some (l, b, r, t) ∧
      (∀ eps : ℚ, 0 < eps → |(r - l) / (t - b) - tq| < eps) ∧
      (r - l) / (t - b) = tq ∧
      l ≤ left ∧ b ≤ bottom ∧ right ≤ r ∧ top ≤ t ∧
      ((l = left ∧ r = right) ∨ (b = bottom ∧ t = top)) ∧
      ¬(l < left ∧ b < bottom) := by
  obtain ⟨l, b, r, t, hv, hr, h1, h2, h3, h4, _, _, hone⟩ :=
    fit_spec left bottom right top tq hl hb hq
  refine ⟨l, b, r, t, hv, (axes_fit_eq_bbox_fit left bottom right top tq).trans hv,
    ?_, hr, h1, h2, h3, h4, hone, ?_⟩
  · intro eps heps
    rw [hr, sub_self, abs_zero]
    exact heps
  · rcases hone with ⟨he, _⟩ | ⟨he, _⟩ <;> intro hcon
    · exact absurd hcon.1 (by rw [he]; exact lt_irrefl left)
    · exact absurd hcon.2 (by rw [he]; exact lt_irrefl bottom)

theorem fit_ratio_invariant_witness :
    ((0:ℚ) < 1 ∧ (0:ℚ) < 2 ∧ (0:ℚ) < 1) ∧
    (∃ l b r t,
      _expand_bbox_to_match_ratio 0 0 1 2 1 = some (l, b, r, t) ∧
      _expand_axes_limit_to_match_ratio 0 0 1 2 1 = some (l, b, r, t) ∧
      (∀ eps : ℚ, 0 < eps → |(r - l) / (t - b) - 1| < eps) ∧
      (r - l) / (t - b) = 1 ∧
      l ≤ 0 ∧ b ≤ 0 ∧ 1 ≤ r ∧ 2 ≤ t ∧
      ((l = 0 ∧ r = 1) ∨ (b = 0 ∧ t = 2)) ∧
      ¬(l < 0 ∧ b < 0)) :=
  ⟨⟨by norm_num, by norm_num, by norm_num⟩,
    fit_ratio_invariant 0 0 1 2 1 (by norm_num) (by norm_num) (by norm_num)⟩

/-- C7: whenever the fitting core grows an axis, the padding is split exactly
evenly between the two sides of that axis — the result is
`(left - pad, bottom, right + pad, top)` or `(left, bottom - pad, right, top + pad)`
for a single non-negative `pad`, in both `_expand_bbox_to_match_ratio` and
`_expand_axes_limit_to_match_ratio`; never asymmetric. -/
theorem fit_padding_symmetric (left bottom right top tq : ℚ)
    (hl : left < right) (hb : bottom < top) (hq : 0 < tq) :
    ∃ pad : ℚ, 0 ≤ pad ∧
      ((_expand_bbox_to_match_ratio left bottom right top tq =
          some (left - pad, bottom, right + pad, top) ∧
        _expand_axes_limit_to_match_ratio left bottom right top tq =
          some (left - pad, bottom, right + pad, top)) ∨
       (_expand_bbox_to_match_ratio left bottom right top tq =
          some (left, bottom - pad, right, top + pad) ∧
        _expand_axes_limit_to_match_ratio left bottom right top tq =
          some (left, bottom - pad, right, top + pad))) := by
  obtain ⟨l, b, r, t, hv, _, h1, h2, h3, h4, hs1, hs2, hone⟩ :=
    fit_spec left bottom right top tq hl hb hq
  rcases hone with ⟨hel, her⟩ | ⟨heb, het⟩
  · refine ⟨bottom - b, by linarith, Or.inr ⟨?_, ?_⟩⟩
    · rw [hv]
      congr 1
      have ht : t = top + (bottom - b) := by linarith
      rw [hel, her, ht, sub_sub_cancel]
    · rw [axes_fit_eq_bbox_fit, hv]
      congr 1
      have ht : t = top + (bottom - b) := by linarith
      rw [hel, her, ht, sub_sub_cancel]
  · refine ⟨left - l, by linarith, Or.inl ⟨?_, ?_⟩⟩
    · rw [hv]
      congr 1
      have hr : r = right + (left - l) := by linarith
      rw [heb, het, hr, sub_sub_cancel]
    · rw [axes_fit_eq_bbox_fit, hv]
      congr 1
      have hr : r = right + (left - l) := by linarith
      rw [heb, het, hr, sub_sub_cancel]

theorem fit_padding_symmetric_witness :
    ((0:ℚ) < 1 ∧ (0:ℚ) < 2 ∧ (0:ℚ) < 1) ∧
    (∃ pad : ℚ, 0 ≤ pad ∧
      ((_expand_bbox_to_match_ratio 0 0 1 2 1 = some (0 - pad, 0, 1 + pad, 2) ∧
        _expand_axes_limit_to_match_ratio 0 0 1 2 1 = some (0 - pad, 0, 1 + pad, 2)) ∨
       (_expand_bbox_to_match_ratio 0 0 1 2 1 = some (0, 0 - pad, 1, 2 + pad) ∧
        _expand_axes_limit_to_match_ratio 0 0 1 2 1 = some (0, 0 - pad, 1, 2 + pad)))) :=
  ⟨⟨by norm_num, by norm_num, by norm_num⟩,
    fit_padding_symmetric 0 0 1 2 1 (by norm_num) (by norm_num) (by norm_num)⟩

/-- C8: if the box's current width/height ratio already equals the target, the
fit is an identity — the computed padding is 0 and both fitting functions
return the input box unchanged. -/
theorem fit_identity_when_ratio_matches (left bottom right top tq : ℚ)
    (hl : left < right) (hb : bottom < top)
    (heq : (right - left) / (top - bottom) = tq) :
    _expand_bbox_to_match_ratio left bottom right top tq =
      some (left, bottom, right, top) ∧
    _expand_axes_limit_to_match_ratio left bottom right top tq =
      some (left, bottom, right, top) := by
  have hh : (0:ℚ) < top - bottom := by linarith
  have hw : (0:ℚ) < right - left := by linarith
  have hh0 : top - bottom ≠ 0 := ne_of_gt hh
  have hq : 0 < tq := heq ▸ div_pos hw hh
  have htq0 : tq ≠ 0 := ne_of_gt hq
  have hnlt : ¬((right - left) / (top - bottom) < tq) := by
    rw [heq]
    exact lt_irrefl tq
  have hmain : _expand_bbox_to_match_ratio left bottom right top tq =
      some (left, bottom, right, top) := by
    simp only [_expand_bbox_to_match_ratio, if_neg hh0, if_neg hnlt, if_neg htq0,
      heq, div_self htq0, one_mul, sub_self, zero_div, sub_zero, add_zero, ite_self]
  exact ⟨hmain, (axes_fit_eq_bbox_fit left bottom right top tq).trans hmain⟩

theorem fit_identity_when_ratio_matches_witness :
    ((0:ℚ) < 2 ∧ (0:ℚ) < 1 ∧ ((2:ℚ) - 0) / (1 - 0) = 2) ∧
    (_expand_bbox_to_match_ratio 0 0 2 1 2 = some (0, 0, 2, 1) ∧
     _expand_axes_limit_to_match_ratio 0 0 2 1 2 = some (0, 0, 2, 1)) :=
  ⟨⟨by norm_num, by norm_num, by norm_num⟩,
    fit_identity_when_ratio_matches 0 0 2 1 2 (by norm_num) (by norm_num)
      (by norm_num)⟩

end PixelMap
